import Mathlib

/-!
Verification development for the TrueAccrue reporting engine
(src/report.py).  The core under study is the pair of pure table
transformations `create_summary_report` (amount normalization, pivot by
Vendor/Account against the accounting-period dimension, anomaly
detection) and `create_detailed_report` (column projection and currency
formatting).

Modelling conventions:
* a pandas cell is `Cell`: a text value, a (finite) numeric value
  modelled as a rational, or the missing marker NaN/NA;
* a DataFrame is a column-name list plus rows of cells, each row aligned
  with the column list;
* float arithmetic is modelled over `ℚ`.  The one place IEEE semantics
  is observable — division by zero in the variance computation — is
  modelled explicitly by the `PVal` type (finite value, +inf, -inf);
  the NaN produced by 0/0 is immediately replaced by `fillna(0)` in the
  source, so no NaN constructor is needed downstream;
* `numpy.round` / Python `format` round half to even; rounding to `d`
  decimals is modelled exactly on rationals by `roundHE`;
* grouping keys may be any non-missing cell (pandas drops NaN keys);
  period labels are modelled as text cells, per the data model, which
  requires lexically sortable text period labels (spec section 3).
-/

namespace TrueAccrue

/-- A pandas cell: text, a finite numeric value, or the NaN/NA missing
marker. -/
inductive Cell where
  | str : String → Cell
  | num : ℚ → Cell
  | na : Cell
deriving DecidableEq, Repr

/-- A pandas DataFrame: named columns and rows of cells; each row lists
one cell per column, in column order. -/
structure DataFrame where
  cols : List String
  rows : List (List Cell)
deriving DecidableEq, Repr

/-- The empty DataFrame, returned by both report builders on bad input
(pd.DataFrame() in the source). -/
def emptyDF : DataFrame := { cols := [], rows := [] }

/-- df.empty in pandas: true when the frame has no rows or no columns. -/
def DataFrame.isEmptyDF (df : DataFrame) : Bool :=
  df.rows.isEmpty || df.cols.isEmpty

/-- Cell in the column named `c` of a row aligned with the column list
`cs`; missing columns and short rows read as NA. -/
def colCell : List String → List Cell → String → Cell
  | [], _, _ => Cell.na
  | _ :: _, [], _ => Cell.na
  | cname :: cs, x :: xs, c => if cname = c then x else colCell cs xs c

/-- Cell of row `r` in column `c` of the frame. -/
def getCell (df : DataFrame) (r : List Cell) (c : String) : Cell :=
  colCell df.cols r c

/-- First-occurrence deduplication, as the distinct grouping values of
a groupby arise. -/
def dedupKeep {α : Type} [DecidableEq α] : List α → List α
  | [] => []
  | a :: as => a :: (dedupKeep as).filter (fun b => decide (b ≠ a))

/-! ### Amount normalizer

Models line 52 of the source:
pd.to_numeric(df[...].astype(str).str.replace(that comma, nothing),
errors=coerce).  The numeric parse accepts an optional sign, digits and
at most one decimal point (the decimal notation that appears in the
data; exponent and whitespace forms of the underlying library parser
are not modelled). -/

/-- Value of a most-significant-first decimal digit list. -/
def digitsVal (cs : List Char) : ℕ :=
  cs.foldl (fun a c => a * 10 + (c.toNat - 48)) 0

/-- Numeric parse of a string: optional sign, then digits with at most
one decimal point and at least one digit.  Returns none (the missing
marker, never zero) on anything unparsable. -/
def parseChars (cs0 : List Char) : Option ℚ :=
  let signSplit : Bool × List Char :=
    match cs0 with
    | '-' :: rest => (true, rest)
    | '+' :: rest => (false, rest)
    | cs => (false, cs)
  let neg := signSplit.1
  let body := signSplit.2
  let fin : ℚ → Option ℚ := fun q => some (if neg then -q else q)
  match body.splitOn '.' with
  | [ip] =>
      if ip ≠ [] ∧ ip.all Char.isDigit then fin (digitsVal ip) else none
  | [ip, fp] =>
      if (ip ++ fp) ≠ [] ∧ ip.all Char.isDigit ∧ fp.all Char.isDigit then
        fin ((digitsVal ip : ℚ) + (digitsVal fp : ℚ) / (10 : ℚ) ^ fp.length)
      else none
  | _ => none

/-- Numeric parse of a string. -/
def parseNum (s : String) : Option ℚ := parseChars s.data

/-- Removal of thousands-separator commas (str.replace with the comma
and the empty string in the source). -/
def stripCommas (s : String) : String :=
  String.mk (s.data.filter (fun c => decide (c ≠ ',')))

/-- Amount normalization of one cell: astype(str) then comma strip then
numeric parse with errors=coerce.  A numeric cell survives the string
round trip unchanged; NA prints as a non-numeric token and stays
missing; text is comma-stripped and parsed, unparsable text becoming
the missing marker (none), never zero. -/
def cleanAmount : Cell → Option ℚ
  | Cell.str s => parseNum (stripCommas s)
  | Cell.num q => some q
  | Cell.na => none

/-- Normalized amount of a row (the Amount_Numeric column, source lines
51-54): the cleaned Amount cell when the Amount column exists, and the
constant 0 for every row when it does not. -/
def rowAmount (df : DataFrame) (r : List Cell) : Option ℚ :=
  if "Amount" ∈ df.cols then cleanAmount (getCell df r "Amount") else some 0

/-! ### Rounding

numpy.round and Python numeric formatting round half to even; this is
modelled exactly on rationals. -/

/-- Floor of a rational as an integer (num and den are already in
lowest terms with positive denominator). -/
def ratFloor (x : ℚ) : ℤ := Int.fdiv x.num (x.den : ℤ)

/-- Round half to even to the nearest integer. -/
def roundHE (x : ℚ) : ℤ :=
  let f := ratFloor x
  let frac := x - (f : ℚ)
  if frac < 1 / 2 then f
  else if 1 / 2 < frac then f + 1
  else if 2 ∣ f then f else f + 1

/-- Round to 2 decimal places (the .round(2) on the pivot table). -/
def round2 (x : ℚ) : ℚ := (roundHE (x * 100) : ℚ) / 100

/-- Round to 1 decimal place (the .round(1) on the variance). -/
def round1 (x : ℚ) : ℚ := (roundHE (x * 10) : ℚ) / 10

/-! ### Lexicographic string order

Python sorted() orders strings lexicographically by code point; the
built-in String order of the library is not kernel-friendly, so the
same order is defined here structurally. -/

/-- Code-point lexicographic comparison of character lists. -/
def charsLe : List Char → List Char → Bool
  | [], _ => true
  | _ :: _, [] => false
  | a :: as, b :: bs =>
      if a.toNat < b.toNat then true
      else if b.toNat < a.toNat then false
      else charsLe as bs

/-- Code-point lexicographic order on strings, as Python sorted() uses. -/
def strLe (a b : String) : Prop := charsLe a.data b.data = true

instance : DecidableRel strLe := fun _ _ => instDecidableEqBool _ _

/-- Lexical ascending sort of period labels (sorted(period_cols) at
source line 81; insertion sort is extensionally the same ordering). -/
def periodSort (l : List String) : List String :=
  List.insertionSort strLe l

/-! ### Aggregation engine: the pivot table (source lines 67-77)

pivot_table(index=[Vendor, Account], columns=period_col,
values=Amount_Numeric, aggfunc=sum, fill_value=0).round(2).
Rows whose Vendor, Account or period cell is NaN are dropped by the
groupby; the remaining rows are bucketed by (Vendor, Account) pair and
period label, each bucket summed with NaN amounts skipped (an
all-missing or empty bucket sums to 0, which is also the fill value),
and every cell rounded to 2 decimals. -/

/-- One surviving input row, reduced to its grouping data. -/
structure Entry where
  vendor : Cell
  account : Cell
  period : String
  amount : Option ℚ
deriving DecidableEq, Repr

/-- Text content of a cell, used where the cell serves as a period
label. -/
def strCell : Cell → Option String
  | Cell.str s => some s
  | _ => none

/-- Grouping data of one row, or none when a grouping cell is missing
(the groupby inside pivot_table drops such rows). -/
def entryOf (df : DataFrame) (pcol : String) (r : List Cell) : Option Entry :=
  let v := getCell df r "Vendor"
  let a := getCell df r "Account"
  if v = Cell.na ∨ a = Cell.na then none
  else
    match strCell (getCell df r pcol) with
    | some p => some { vendor := v, account := a, period := p, amount := rowAmount df r }
    | none => none

/-- Pivot cell for key `k` and period `p`: sum of the non-missing
normalized amounts of the matching entries (0 when there are none,
matching fill_value=0), rounded to 2 decimals. -/
def cellVal (entries : List Entry) (k : Cell × Cell) (p : String) : ℚ :=
  round2 (((entries.filter
    (fun e => decide (e.vendor = k.1 ∧ e.account = k.2 ∧ e.period = p))).filterMap
      Entry.amount).sum)

/-- One row of the pivot table: the (Vendor, Account) key and one value
per period column, aligned with the period list of the table. -/
structure PivotRow where
  vendor : Cell
  account : Cell
  vals : List ℚ
deriving DecidableEq, Repr

/-- The pivot table: period column labels plus one row per key. -/
structure PivotTable where
  periods : List String
  rows : List PivotRow
deriving DecidableEq, Repr

/-- The pivot stage (source lines 67-77): distinct period labels become
columns (pandas emits them sorted), distinct (Vendor, Account) pairs
become rows.  The index sort order of pandas is not modelled; no
property under study depends on row order. -/
def pivotStage (df : DataFrame) (pcol : String) : PivotTable :=
  let entries := df.rows.filterMap (entryOf df pcol)
  let periods := periodSort (dedupKeep (entries.map Entry.period))
  let keys := dedupKeep (entries.map (fun e => (e.vendor, e.account)))
  { periods := periods
    rows := keys.map (fun k =>
      { vendor := k.1, account := k.2, vals := periods.map (cellVal entries k) }) }

/-- Value of a pivot row in the period column labelled `p` (column
lookup through the label list the values are aligned with). -/
def rowVal : List String → List ℚ → String → ℚ
  | [], _, _ => 0
  | _ :: _, [], _ => 0
  | q :: qs, v :: vs, p => if q = p then v else rowVal qs vs p

/-- The lexically maximal period label: the last element of the sorted
label list, the latest_period of source line 84. -/
def latestOf (ps : List String) : String :=
  (periodSort ps).getLast?.getD ""

/-! ### Anomaly detector (source lines 79-113) -/

/-- Historical average of one row (source line 88): the values are
taken with zeros replaced by NA and averaged with skipna, the all-NA
mean (NaN) being filled with 0 — that is, the mean of the non-zero
values, and 0 when every value is zero. -/
def nonzeroMean (l : List ℚ) : ℚ :=
  let nz := l.filter (fun x => decide (x ≠ 0))
  if nz.length = 0 then 0 else nz.sum / (nz.length : ℚ)

/-- The alert flag.  The source renders these as text with a leading
pictograph (the Missing, Low and Normal entries of the choices list at
line 104); the flag itself is modelled as an enumeration. -/
inductive Alert where
  | missing
  | low
  | normal
deriving DecidableEq, Repr

/-- Alert classification (np.select at lines 96-105): first matching
condition wins, the default being Normal — in particular every row
with no positive historical average is Normal. -/
def alertOf (lat havg : ℚ) : Alert :=
  if lat = 0 ∧ 0 < havg then Alert.missing
  else if 0 < lat ∧ 0 < havg ∧ lat < havg * 0.5 then Alert.low
  else Alert.normal

/-- A float as observable in the Variance_% column: a finite value or
an IEEE infinity.  (The NaN of 0/0 is filled with 0 by the source
before the column is ever read, so it needs no constructor.) -/
inductive PVal where
  | fin : ℚ → PVal
  | posInf
  | negInf
deriving DecidableEq, Repr

/-- Variance computation (lines 108-110), with IEEE semantics made
explicit: (lat - havg)/havg*100 rounded to 1 decimal when havg is not
zero; when havg is zero the float division yields NaN for lat = 0
(then .round keeps NaN and .fillna(0) turns it into 0) and a signed
infinity otherwise (.round keeps it and .fillna does not touch it,
since an infinity is not NA). -/
def varOf (lat havg : ℚ) : PVal :=
  if havg = 0 then
    if lat = 0 then PVal.fin 0
    else if 0 < lat then PVal.posInf else PVal.negInf
  else PVal.fin (round1 ((lat - havg) / havg * 100))

/-- The derived columns appended by the anomaly detector when at least
two period columns exist. -/
structure DerivedCols where
  historicalAvg : ℚ
  latestAmount : ℚ
  alert : Alert
  variancePct : PVal
deriving DecidableEq, Repr

/-- One row of the summary report: the untouched pivot row, the
anomaly columns (absent entirely — not null-filled — below two period
columns), and the Total column. -/
structure SummaryRow where
  base : PivotRow
  derived : Option DerivedCols
  total : ℚ
deriving DecidableEq, Repr

/-- The summary report table. -/
structure SummaryTable where
  periods : List String
  rows : List SummaryRow
deriving DecidableEq, Repr

/-- Derived columns of one pivot row: historical average over the
non-latest sorted periods, latest amount copied from the latest period
column, alert flag and variance. -/
def deriveFor (ps : List String) (latest : String) (hist : List String)
    (r : PivotRow) : DerivedCols :=
  let havg := nonzeroMean (hist.map (fun p => rowVal ps r.vals p))
  let lat := rowVal ps r.vals latest
  { historicalAvg := havg
    latestAmount := lat
    alert := alertOf lat havg
    variancePct := varOf lat havg }

/-- Total of one pivot row (line 113): sum over all period columns,
computed in both modes. -/
def totalFor (ps : List String) (r : PivotRow) : ℚ :=
  (ps.map (fun p => rowVal ps r.vals p)).sum

/-- The anomaly-detection stage (lines 79-113).  Period labels are
sorted lexically; with at least two period columns the maximum label is
the latest period and the rest are historical, and the four derived
columns are appended to every row; with fewer the derived columns are
absent.  The Total column is appended in both cases, summing the
period columns in their original order. -/
def detectStage (t : PivotTable) : SummaryTable :=
  let sorted := periodSort t.periods
  if 2 ≤ sorted.length then
    let latest := sorted.getLast?.getD ""
    let hist := sorted.dropLast
    { periods := t.periods
      rows := t.rows.map (fun r =>
        { base := r
          derived := some (deriveFor t.periods latest hist r)
          total := totalFor t.periods r }) }
  else
    { periods := t.periods
      rows := t.rows.map (fun r =>
        { base := r, derived := none, total := totalFor t.periods r }) }

/-- Which period column the engine uses (lines 56-61): the qualified
name when present, else the bare name, else none. -/
def periodColOf (df : DataFrame) : Option String :=
  if ("Accounting Period: Name") ∈ df.cols then some ("Accounting Period: Name")
  else if ("Accounting Period") ∈ df.cols then some ("Accounting Period")
  else none

/-- create_summary_report (lines 45-115).  Returns none for the empty
DataFrame the source hands back when the input is missing or empty or
when a required grouping or period column is absent; otherwise the
pivot stage followed by the anomaly-detection stage. -/
def create_summary_report (dfO : Option DataFrame) : Option SummaryTable :=
  match dfO with
  | none => none
  | some df =>
      if df.isEmptyDF then none
      else
        match periodColOf df with
        | none => none
        | some pcol =>
            if "Vendor" ∈ df.cols ∧ "Account" ∈ df.cols then
              some (detectStage (pivotStage df pcol))
            else none

/-! ### Detail formatter (source lines 117-141) -/

/-- The fixed ordered candidate column list of the detailed report. -/
def detail_cols : List String :=
  ["Account", "Name", "Description", "Amount", "Accounting Period: Name", "Vendor"]

/-- Decimal digit characters of a natural number, most significant
first. -/
def natDigits (n : ℕ) : List Char := Nat.toDigits 10 n

/-- Helper over a least-significant-first digit list: a comma after
every third digit. -/
def commasRev : List Char → ℕ → List Char
  | [], _ => []
  | c :: cs, k =>
      if k = 2 ∧ cs ≠ [] then c :: ',' :: commasRev cs 0
      else c :: commasRev cs (k + 1)

/-- Digit grouping with thousands-separator commas. -/
def groupDigits (n : ℕ) : String :=
  String.mk (commasRev (natDigits n).reverse 0).reverse

/-- Exactly two digits (for the cents part). -/
def pad2 (n : ℕ) : String :=
  String.mk (if n < 10 then '0' :: natDigits n else natDigits n)

/-- Python format with comma grouping and 2 decimals: round half to
even at 2 decimals, minus sign (kept even when the rounded magnitude is
zero but the value is negative), grouped integer digits, a point and
exactly two fractional digits. -/
def format2f (x : ℚ) : String :=
  let c : ℤ := roundHE (x * 100)
  let sgn := if c < 0 ∨ (c = 0 ∧ x < 0) then "-" else ""
  let m := c.natAbs
  sgn ++ groupDigits (m / 100) ++ "." ++ pad2 (m % 100)

/-- Formatted currency string (line 136): the dollar sign and the
2-decimal grouped value, or the fixed $0.00 for a missing or
unparsable amount. -/
def formatCurrency : Option ℚ → String
  | some q => "$" ++ format2f q
  | none => "$0.00"

/-- Amount_Clean cell: the independent re-parse of the raw Amount cell
(lines 131-134), missing when unparsable. -/
def amtCleanCell (c : Cell) : Cell :=
  match cleanAmount c with
  | some q => Cell.num q
  | none => Cell.na

/-- Amount_Formatted cell (lines 135-137). -/
def amtFormattedCell (c : Cell) : Cell :=
  Cell.str (formatCurrency (cleanAmount c))

/-- create_detailed_report (lines 117-141): empty in, empty out; then
the present members of the fixed column list are selected in that
fixed order — if none is present the input is passed through
unchanged — and when Amount is among them the cleaned and formatted
amount columns are appended, the formatted value re-parsed from the
raw Amount cell of each row. -/
def create_detailed_report (dfO : Option DataFrame) : DataFrame :=
  match dfO with
  | none => emptyDF
  | some df =>
      if df.isEmptyDF then emptyDF
      else
        let available := detail_cols.filter (fun c => decide (c ∈ df.cols))
        if available.isEmpty then df
        else
          if "Amount" ∈ available then
            { cols := available ++ [("Amount_Clean"), ("Amount_Formatted")]
              rows := df.rows.map (fun r =>
                available.map (fun c => getCell df r c) ++
                  [amtCleanCell (getCell df r "Amount"),
                   amtFormattedCell (getCell df r "Amount")]) }
          else
            { cols := available
              rows := df.rows.map (fun r => available.map (fun c => getCell df r c)) }

/-! ### Concrete evaluation inputs

Small frames used to evaluate the pipeline at concrete data: the
worked two-period scenario of the spec, a single-period frame, a frame
whose group has no historical activity, and a frame whose amounts are
all unparsable. -/

/-- The worked scenario of the spec: one vendor-account pair, periods
2024-01 (amount text 1,000) and 2024-02 (amount text 0). -/
def dfW : DataFrame :=
  { cols := [("Vendor"), ("Account"), ("Accounting Period"), ("Amount")]
    rows := [[Cell.str "VendorA", Cell.str "Acct1", Cell.str "2024-01", Cell.str "1,000"],
             [Cell.str "VendorA", Cell.str "Acct1", Cell.str "2024-02", Cell.str "0"]] }

/-- The entries the pivot derives from dfW. -/
def eW : List Entry :=
  [{ vendor := Cell.str "VendorA", account := Cell.str "Acct1",
     period := "2024-01", amount := some 1000 },
   { vendor := Cell.str "VendorA", account := Cell.str "Acct1",
     period := "2024-02", amount := some 0 }]

/-- The pivot table of dfW. -/
def pW : PivotTable :=
  { periods := [("2024-01"), ("2024-02")]
    rows := [{ vendor := Cell.str "VendorA", account := Cell.str "Acct1",
               vals := [1000, 0] }] }

/-- The derived columns of the dfW group row. -/
def dW : DerivedCols :=
  { historicalAvg := 1000, latestAmount := 0,
    alert := Alert.missing, variancePct := PVal.fin (-100) }

/-- The dfW summary row. -/
def rW : SummaryRow :=
  { base := { vendor := Cell.str "VendorA", account := Cell.str "Acct1",
              vals := [1000, 0] }
    derived := some dW
    total := 1000 }

/-- The summary table of dfW. -/
def tW : SummaryTable :=
  { periods := [("2024-01"), ("2024-02")], rows := [rW] }

/-- A single-period frame. -/
def dfS1 : DataFrame :=
  { cols := [("Vendor"), ("Account"), ("Accounting Period"), ("Amount")]
    rows := [[Cell.str "V", Cell.str "A", Cell.str "2024-01", Cell.num 5]] }

/-- The dfS1 summary row: no derived columns, total still computed. -/
def rS1 : SummaryRow :=
  { base := { vendor := Cell.str "V", account := Cell.str "A", vals := [5] }
    derived := none
    total := 5 }

/-- The summary table of dfS1. -/
def tS1 : SummaryTable :=
  { periods := [("2024-01")], rows := [rS1] }

/-- A frame whose group has zero historical activity and a non-zero
latest amount. -/
def dfC1 : DataFrame :=
  { cols := [("Vendor"), ("Account"), ("Accounting Period"), ("Amount")]
    rows := [[Cell.str "V", Cell.str "A", Cell.str "2024-01", Cell.num 0],
             [Cell.str "V", Cell.str "A", Cell.str "2024-02", Cell.num 100]] }

/-- The derived columns of the dfC1 group row: zero baseline, latest
100, variance +inf. -/
def dC1 : DerivedCols :=
  { historicalAvg := 0, latestAmount := 100,
    alert := Alert.normal, variancePct := PVal.posInf }

/-- The dfC1 summary row. -/
def rC1 : SummaryRow :=
  { base := { vendor := Cell.str "V", account := Cell.str "A", vals := [0, 100] }
    derived := some dC1
    total := 100 }

/-- The summary table of dfC1. -/
def tC1 : SummaryTable :=
  { periods := [("2024-01"), ("2024-02")], rows := [rC1] }

/-- A frame whose amounts all fail the numeric parse. -/
def dfM : DataFrame :=
  { cols := [("Vendor"), ("Account"), ("Accounting Period"), ("Amount")]
    rows := [[Cell.str "V", Cell.str "A", Cell.str "2024-01", Cell.str "abc"],
             [Cell.str "V", Cell.str "A", Cell.str "2024-02", Cell.str "xyz"]] }

/-- The dfM pivot row: both cells 0, indistinguishable from zero
activity. -/
def rM : PivotRow :=
  { vendor := Cell.str "V", account := Cell.str "A", vals := [0, 0] }

/-- The pivot table of dfM. -/
def pM : PivotTable :=
  { periods := [("2024-01"), ("2024-02")], rows := [rM] }

/-- A frame without the Vendor grouping column. -/
def dfG : DataFrame :=
  { cols := [("Account")], rows := [[Cell.str "A"]] }

/-- A frame without an Amount column. -/
def dfNA : DataFrame :=
  { cols := [("Vendor"), ("Account"), ("Accounting Period")]
    rows := [[Cell.str "V", Cell.str "A", Cell.str "2024-01"]] }

/-! ## Helper lemmas -/

theorem charsLe_refl (l : List Char) : charsLe l l = true := by
  induction l with
  | nil => rfl
  | cons a as ih => simp [charsLe, ih]

theorem strLe_refl (s : String) : strLe s s := charsLe_refl s.data

theorem charsLe_total (l₁ l₂ : List Char) :
    charsLe l₁ l₂ = true ∨ charsLe l₂ l₁ = true := by
  induction l₁ generalizing l₂ with
  | nil => exact Or.inl rfl
  | cons a as ih =>
      cases l₂ with
      | nil => exact Or.inr rfl
      | cons b bs =>
          rcases Nat.lt_trichotomy a.toNat b.toNat with h | h | h
          · left; simp [charsLe, h]
          · rcases ih bs with h2 | h2
            · left; simp [charsLe, h, h2]
            · right; simp [charsLe, h.symm, h2]
          · right; simp [charsLe, h]

theorem charsLe_trans (l₁ l₂ l₃ : List Char) (h₁ : charsLe l₁ l₂ = true)
    (h₂ : charsLe l₂ l₃ = true) : charsLe l₁ l₃ = true := by
  induction l₁ generalizing l₂ l₃ with
  | nil => rfl
  | cons a as ih =>
      cases l₂ with
      | nil => simp [charsLe] at h₁
      | cons b bs =>
          cases l₃ with
          | nil => simp [charsLe] at h₂
          | cons c cs =>
              rcases Nat.lt_trichotomy a.toNat b.toNat with hab | hab | hab
              · rcases Nat.lt_trichotomy b.toNat c.toNat with hbc | hbc | hbc
                · simp [charsLe, Nat.lt_trans hab hbc]
                · have hac : a.toNat < c.toNat := by omega
                  simp [charsLe, hac]
                · simp [charsLe, hbc, Nat.lt_asymm hbc] at h₂
              · rcases Nat.lt_trichotomy b.toNat c.toNat with hbc | hbc | hbc
                · have hac : a.toNat < c.toNat := by omega
                  simp [charsLe, hac]
                · have hac : a.toNat = c.toNat := hab.trans hbc
                  have hba : ¬ b.toNat < a.toNat := by omega
                  have hcb : ¬ c.toNat < b.toNat := by omega
                  simp [charsLe, hab, Nat.lt_irrefl, hba] at h₁
                  simp [charsLe, hbc, Nat.lt_irrefl, hcb] at h₂
                  have hca : ¬ c.toNat < a.toNat := by omega
                  have hac2 : ¬ a.toNat < c.toNat := by omega
                  simp [charsLe, hac2, hca, ih bs cs h₁ h₂]
                · simp [charsLe, hbc, Nat.lt_asymm hbc] at h₂
              · simp [charsLe, hab, Nat.lt_asymm hab] at h₁

theorem periodSort_perm (l : List String) : (periodSort l).Perm l :=
  List.perm_insertionSort strLe l

theorem periodSort_sorted (l : List String) : List.Sorted strLe (periodSort l) :=
  @List.sorted_insertionSort String strLe _
    ⟨fun a b => charsLe_total a.data b.data⟩
    ⟨fun a b c h₁ h₂ => charsLe_trans a.data b.data c.data h₁ h₂⟩ l

/-- In a lexically sorted label list every element is below the last
one. -/
theorem sorted_le_getLast (l : List String) (hs : List.Sorted strLe l) :
    ∀ x ∈ l, strLe x (l.getLast?.getD "") := by
  induction l with
  | nil => intro x hx; cases hx
  | cons a t ih =>
      intro x hx
      rcases List.sorted_cons.mp hs with ⟨ha, ht⟩
      cases t with
      | nil =>
          rcases List.mem_singleton.mp hx with rfl
          exact strLe_refl x
      | cons b ts =>
          rw [List.getLast?_cons_cons]
          rcases List.mem_cons.mp hx with rfl | hx2
          · have hmem : (b :: ts).getLast?.getD "" ∈ b :: ts := by
              cases hlast : (b :: ts).getLast? with
              | none => simp at hlast
              | some y =>
                  simpa [hlast] using List.mem_of_mem_getLast? (l := b :: ts) (by simp [hlast])
            exact ha _ hmem
          · exact ih ht x hx2

theorem latestOf_max (ps : List String) : ∀ p ∈ ps, strLe p (latestOf ps) := by
  intro p hp
  have hp2 : p ∈ periodSort ps := ((periodSort_perm ps).mem_iff).mpr hp
  exact sorted_le_getLast (periodSort ps) (periodSort_sorted ps) p hp2

theorem latestOf_mem (ps : List String) (h : ps ≠ []) : latestOf ps ∈ ps := by
  have hne : periodSort ps ≠ [] := by
    intro hcon
    exact h (List.Perm.eq_nil ((hcon ▸ periodSort_perm ps : List.Perm [] ps)).symm)
  have : (periodSort ps).getLast hne ∈ periodSort ps := List.getLast_mem hne
  have heq : latestOf ps = (periodSort ps).getLast hne := by
    simp [latestOf, List.getLast?_eq_getLast _ hne]
  rw [heq]
  exact ((periodSort_perm ps).mem_iff).mp this

theorem dedupKeep_nodup {α : Type} [DecidableEq α] (l : List α) :
    (dedupKeep l).Nodup := by
  induction l with
  | nil => simp [dedupKeep]
  | cons a as ih =>
      rw [dedupKeep, List.nodup_cons]
      constructor
      · intro hmem
        rcases List.mem_filter.mp hmem with ⟨_, hcon⟩
        simp at hcon
      · exact ih.filter _

theorem periods_nodup (df : DataFrame) (pcol : String) :
    (pivotStage df pcol).periods.Nodup := by
  have h1 : (pivotStage df pcol).periods =
      periodSort (dedupKeep ((df.rows.filterMap (entryOf df pcol)).map Entry.period)) := rfl
  rw [h1]
  exact ((periodSort_perm _).symm).nodup (dedupKeep_nodup _)

/-- Looking up a period value in a row whose values were built in
alignment with the label list recovers the building function. -/
theorem rowVal_map (f : String → ℚ) (ps : List String) (p : String) (hp : p ∈ ps) :
    rowVal ps (ps.map f) p = f p := by
  induction ps with
  | nil => cases hp
  | cons a t ih =>
      rw [List.map_cons, rowVal]
      by_cases hap : a = p
      · simp [hap]
      · rcases List.mem_cons.mp hp with rfl | hpt
        · exact absurd rfl hap
        · simp [hap, ih hpt]

theorem totalFor_vals (f : String → ℚ) (ps : List String) (r : PivotRow)
    (hv : r.vals = ps.map f) : totalFor ps r = r.vals.sum := by
  rw [totalFor, hv]
  exact congrArg List.sum (List.map_congr_left (fun p hp => rowVal_map f ps p hp))

theorem nonzeroMean_perm {l₁ l₂ : List ℚ} (h : l₁.Perm l₂) :
    nonzeroMean l₁ = nonzeroMean l₂ := by
  have hf := h.filter (fun x => decide (x ≠ 0))
  simp only [nonzeroMean, hf.sum_eq, hf.length_eq]

/-- Dropping the last element of the sorted label list is, up to
permutation, removing the maximal label from the label list (labels
are distinct in a pivot table). -/
theorem dropLast_perm_filter (ps : List String) (hnd : ps.Nodup) (hne : ps ≠ []) :
    ((periodSort ps).dropLast).Perm
      (ps.filter (fun p => decide (p ≠ latestOf ps))) := by
  have hsne : periodSort ps ≠ [] := by
    intro hcon
    exact hne (List.Perm.eq_nil ((hcon ▸ periodSort_perm ps : List.Perm [] ps)).symm)
  have hsnd : (periodSort ps).Nodup := ((periodSort_perm ps).symm).nodup hnd
  have hL : latestOf ps = (periodSort ps).getLast hsne := by
    simp [latestOf, List.getLast?_eq_getLast _ hsne]
  have hsplit : (periodSort ps).dropLast ++ [(periodSort ps).getLast hsne] =
      periodSort ps := List.dropLast_append_getLast hsne
  have hnotmem : (periodSort ps).getLast hsne ∉ (periodSort ps).dropLast := by
    intro hcon
    have := hsplit ▸ hsnd
    rcases List.nodup_append.mp this with ⟨_, _, hdisj⟩
    exact hdisj hcon (List.mem_singleton.mpr rfl)
  have hfilter : ((periodSort ps).filter (fun p => decide (p ≠ latestOf ps))) =
      (periodSort ps).dropLast := by
    conv_lhs => rw [← hsplit]
    rw [List.filter_append]
    have h1 : List.filter (fun p => decide (p ≠ latestOf ps))
        [(periodSort ps).getLast hsne] = [] := by
      simp [hL]
    rw [h1, List.append_nil]
    apply List.filter_eq_self.mpr
    intro a ha
    simp only [decide_eq_true_eq]
    intro hcon
    apply hnotmem
    rw [← hL, ← hcon]
    exact ha
  rw [← hfilter]
  exact (periodSort_perm ps).filter _

/-- Shape of a pivot row: its values are aligned with the period
columns through the cell function of its own key. -/
theorem pivotRow_shape (df : DataFrame) (pcol : String) (s : PivotRow)
    (hs : s ∈ (pivotStage df pcol).rows) :
    s.vals = (pivotStage df pcol).periods.map
      (cellVal (df.rows.filterMap (entryOf df pcol)) (s.vendor, s.account)) := by
  simp only [pivotStage, List.mem_map] at hs
  rcases hs with ⟨k, _, rfl⟩
  rfl

/-- Inversion of the anomaly-detection stage: every summary row comes
from a pivot row, keeps it intact, carries its total, and has the
derived columns exactly when at least two period columns exist. -/
theorem detect_shape (t : PivotTable) (s : SummaryRow)
    (hs : s ∈ (detectStage t).rows) :
    s.base ∈ t.rows ∧ s.total = totalFor t.periods s.base ∧
      ((2 ≤ t.periods.length →
        s.derived = some (deriveFor t.periods (latestOf t.periods)
          ((periodSort t.periods).dropLast) s.base)) ∧
       (t.periods.length < 2 → s.derived = none)) := by
  have hlen : (periodSort t.periods).length = t.periods.length :=
    (periodSort_perm t.periods).length_eq
  by_cases h2 : 2 ≤ (periodSort t.periods).length
  · simp only [detectStage, if_pos h2, List.mem_map] at hs
    rcases hs with ⟨r, hr, rfl⟩
    refine ⟨hr, rfl, ?_, ?_⟩
    · intro _
      simp [latestOf]
    · intro hcon
      omega
  · simp only [detectStage, if_neg h2, List.mem_map] at hs
    rcases hs with ⟨r, hr, rfl⟩
    refine ⟨hr, rfl, ?_, ?_⟩
    · intro hcon
      omega
    · intro _
      rfl

/-- Inversion of create_summary_report: a produced table is the
detection stage applied to the pivot of a present, non-empty frame
with the required columns. -/
theorem create_some_inv (dfO : Option DataFrame) (t : SummaryTable)
    (h : create_summary_report dfO = some t) :
    ∃ df pcol, dfO = some df ∧ df.isEmptyDF = false ∧
      periodColOf df = some pcol ∧ ("Vendor" ∈ df.cols ∧ "Account" ∈ df.cols) ∧
      t = detectStage (pivotStage df pcol) := by
  cases dfO with
  | none => simp [create_summary_report] at h
  | some df =>
      by_cases he : df.isEmptyDF
      · simp [create_summary_report, he] at h
      · cases hpc : periodColOf df with
        | none => simp [create_summary_report, he, hpc] at h
        | some pcol =>
            by_cases hva : "Vendor" ∈ df.cols ∧ "Account" ∈ df.cols
            · refine ⟨df, pcol, rfl, by simpa using he, hpc, hva, ?_⟩
              simp [create_summary_report, he, hpc, hva] at h
              exact h.symm
            · simp [create_summary_report, he, hpc, hva] at h

theorem detect_periods (t : PivotTable) : (detectStage t).periods = t.periods := by
  by_cases h2 : 2 ≤ (periodSort t.periods).length
  · simp [detectStage, h2]
  · simp [detectStage, h2]

theorem ratFloor_eq_floor (x : ℚ) : ratFloor x = ⌊x⌋ := by
  rw [ratFloor, Int.fdiv_eq_ediv _ (Int.ofNat_nonneg x.den), Rat.floor_def]

theorem round2_zero : round2 0 = 0 := by
  norm_num [round2, roundHE, ratFloor_eq_floor]

/-! ## The claims -/

/-- C9: the anomaly-detection stage never changes any period-column
value of the pivoted table — the period column list and every pivot
row (latest period included) survive unchanged, the stage only
appending derived columns. -/
theorem anomaly_stage_frame (t : PivotTable) :
    (detectStage t).periods = t.periods ∧
      (detectStage t).rows.map SummaryRow.base = t.rows := by
  refine ⟨detect_periods t, ?_⟩
  by_cases h2 : 2 ≤ (periodSort t.periods).length
  · simp only [detectStage, if_pos h2, List.map_map]
    exact (List.map_congr_left (fun r _ => rfl)).trans (List.map_id t.rows)
  · simp only [detectStage, if_neg h2, List.map_map]
    exact (List.map_congr_left (fun r _ => rfl)).trans (List.map_id t.rows)

/-- C6: create_summary_report yields the empty result, raising
nothing, whenever the input frame is missing or empty, or Vendor or
Account is absent, or no accounting-period column (qualified or bare)
is present. -/
theorem empty_and_schema_guards (dfO : Option DataFrame)
    (h : dfO = none ∨ ∃ df, dfO = some df ∧
      (df.rows = [] ∨ df.cols = [] ∨ ¬ "Vendor" ∈ df.cols ∨ ¬ "Account" ∈ df.cols ∨
        (¬ ("Accounting Period: Name") ∈ df.cols ∧ ¬ ("Accounting Period") ∈ df.cols))) :
    create_summary_report dfO = none := by
  rcases h with rfl | ⟨df, rfl, hcase⟩
  · rfl
  rcases hcase with h1 | h1 | h1 | h1 | ⟨h1, h2⟩
  · have he : df.isEmptyDF = true := by simp [DataFrame.isEmptyDF, h1]
    simp [create_summary_report, he]
  · have he : df.isEmptyDF = true := by simp [DataFrame.isEmptyDF, h1]
    simp [create_summary_report, he]
  · by_cases he : df.isEmptyDF
    · simp [create_summary_report, he]
    · cases hpc : periodColOf df with
      | none => simp [create_summary_report, he, hpc]
      | some pcol => simp [create_summary_report, he, hpc, h1]
  · by_cases he : df.isEmptyDF
    · simp [create_summary_report, he]
    · cases hpc : periodColOf df with
      | none => simp [create_summary_report, he, hpc]
      | some pcol => simp [create_summary_report, he, hpc, h1]
  · have hpc : periodColOf df = none := by simp [periodColOf, h1, h2]
    by_cases he : df.isEmptyDF
    · simp [create_summary_report, he]
    · simp [create_summary_report, he, hpc]

/-- C5: in every row of the time-series output the Total column equals
the sum of the row's period-column values, so it is reconstructable
from the group row alone. -/
theorem total_reconstructs_row (dfO : Option DataFrame) (t : SummaryTable)
    (s : SummaryRow) (h : create_summary_report dfO = some t) (hs : s ∈ t.rows) :
    s.total = s.base.vals.sum := by
  rcases create_some_inv dfO t h with ⟨df, pcol, _, _, _, _, rfl⟩
  rcases detect_shape _ s hs with ⟨hbase, htot, _⟩
  rw [htot]
  exact totalFor_vals _ _ _ (pivotRow_shape df pcol s.base hbase)

/-- C4: the derived anomaly columns are present in a produced
time-series table exactly when the pivot produced at least two
(distinct) period columns — absent entirely otherwise — while the
Total column is computed in both cases. -/
theorem derived_cols_iff_two_periods (dfO : Option DataFrame) (t : SummaryTable)
    (h : create_summary_report dfO = some t) :
    t.periods.Nodup ∧ ∀ s ∈ t.rows,
      (s.derived.isSome ↔ 2 ≤ t.periods.length) ∧ s.total = s.base.vals.sum := by
  rcases create_some_inv dfO t h with ⟨df, pcol, _, _, _, _, rfl⟩
  have hper := detect_periods (pivotStage df pcol)
  refine ⟨hper ▸ periods_nodup df pcol, ?_⟩
  intro s hs
  rcases detect_shape _ s hs with ⟨hbase, htot, hsome, hnone⟩
  constructor
  · rw [hper]
    by_cases h2 : 2 ≤ (pivotStage df pcol).periods.length
    · simp [hsome h2, h2]
    · simp [hnone (by omega), h2]
  · rw [htot]
    exact totalFor_vals _ _ _ (pivotRow_shape df pcol s.base hbase)

theorem derived_some (t : PivotTable) (s : SummaryRow)
    (hs : s ∈ (detectStage t).rows) (d : DerivedCols) (hd : s.derived = some d) :
    2 ≤ t.periods.length ∧
      d = deriveFor t.periods (latestOf t.periods)
        ((periodSort t.periods).dropLast) s.base := by
  rcases detect_shape t s hs with ⟨_, _, hsome, hnone⟩
  by_cases h2 : 2 ≤ t.periods.length
  · refine ⟨h2, ?_⟩
    rw [hd] at hsome
    exact Option.some_inj.mp (hsome h2)
  · rw [hnone (by omega)] at hd
    cases hd

theorem alertOf_missing_iff (lat havg : ℚ) :
    alertOf lat havg = Alert.missing ↔ (lat = 0 ∧ 0 < havg) := by
  unfold alertOf
  split_ifs with h1 h2
  · simp [h1]
  · simp [h1]
  · simp [h1]

theorem alertOf_low_iff (lat havg : ℚ) :
    alertOf lat havg = Alert.low ↔
      (¬(lat = 0 ∧ 0 < havg) ∧ (0 < lat ∧ 0 < havg ∧ lat < havg * 0.5)) := by
  unfold alertOf
  split_ifs with h1 h2
  · simp [h1]
  · simp [h1, h2, ne_of_gt h2.1]
  · simp [h2]

theorem alertOf_normal_of_no_baseline (lat havg : ℚ) (h : havg = 0) :
    alertOf lat havg = Alert.normal := by
  unfold alertOf
  simp [h]

/-- C2: the alert of every group row follows first-match-wins priority
over the lexically sorted period labels, the maximal label being the
latest period: Missing when the latest amount is 0 with a positive
historical average, Low when the latest amount is positive, the
historical average positive and the latest below half of it, Normal
otherwise — in particular whenever the historical average is 0. -/
theorem alert_priority_rules (dfO : Option DataFrame) (t : SummaryTable)
    (s : SummaryRow) (d : DerivedCols) (h : create_summary_report dfO = some t)
    (hs : s ∈ t.rows) (hd : s.derived = some d) :
    (d.alert = Alert.missing ↔ d.latestAmount = 0 ∧ 0 < d.historicalAvg) ∧
    (d.alert = Alert.low ↔ ¬(d.latestAmount = 0 ∧ 0 < d.historicalAvg) ∧
      (0 < d.latestAmount ∧ 0 < d.historicalAvg ∧
        d.latestAmount < d.historicalAvg * 0.5)) ∧
    (d.historicalAvg = 0 → d.alert = Alert.normal) ∧
    d.latestAmount = rowVal t.periods s.base.vals (latestOf t.periods) ∧
    (∀ p ∈ t.periods, strLe p (latestOf t.periods)) := by
  rcases create_some_inv dfO t h with ⟨df, pcol, _, _, _, _, rfl⟩
  have hper := detect_periods (pivotStage df pcol)
  rcases derived_some _ s hs d hd with ⟨h2, rfl⟩
  refine ⟨alertOf_missing_iff _ _, alertOf_low_iff _ _,
    alertOf_normal_of_no_baseline _ _, ?_, ?_⟩
  · rw [hper]
    rfl
  · rw [hper]
    exact latestOf_max _

/-- C3: the historical average of every group row is the mean of the
row's values in the period columns other than the lexically maximal
label, zeros excluded from the mean, and 0 when the exclusion leaves
nothing. -/
theorem historical_avg_excludes_zeros (dfO : Option DataFrame) (t : SummaryTable)
    (s : SummaryRow) (d : DerivedCols) (h : create_summary_report dfO = some t)
    (hs : s ∈ t.rows) (hd : s.derived = some d) :
    d.historicalAvg = nonzeroMean
      ((t.periods.filter (fun p => decide (p ≠ latestOf t.periods))).map
        (fun p => rowVal t.periods s.base.vals p)) ∧
    (∀ p ∈ t.periods, strLe p (latestOf t.periods)) := by
  rcases create_some_inv dfO t h with ⟨df, pcol, _, _, _, _, rfl⟩
  have hper := detect_periods (pivotStage df pcol)
  rcases derived_some _ s hs d hd with ⟨h2, rfl⟩
  have hnd : (pivotStage df pcol).periods.Nodup := periods_nodup df pcol
  have hne : (pivotStage df pcol).periods ≠ [] := by
    intro hcon
    rw [hcon] at h2
    simp at h2
  constructor
  · have hperm := (dropLast_perm_filter (pivotStage df pcol).periods hnd hne).map
      (fun p => rowVal (pivotStage df pcol).periods s.base.vals p)
    have := nonzeroMean_perm hperm
    rw [hper]
    exact this
  · rw [hper]
    exact latestOf_max _

/-- C1 (amended): the variance column carries
round1((latest - avg)/avg*100) whenever the historical average is not
zero; when it is zero the variance is 0 only for a zero latest amount
(the 0/0 NaN filled by fillna), and is a signed infinity — not 0 —
for a non-zero latest amount, because fillna leaves the inf of the
division by zero in place. -/
theorem variance_ieee_semantics (dfO : Option DataFrame) (t : SummaryTable)
    (s : SummaryRow) (d : DerivedCols) (h : create_summary_report dfO = some t)
    (hs : s ∈ t.rows) (hd : s.derived = some d) :
    (d.historicalAvg ≠ 0 → d.variancePct =
      PVal.fin (round1 ((d.latestAmount - d.historicalAvg) / d.historicalAvg * 100))) ∧
    (d.historicalAvg = 0 ∧ d.latestAmount = 0 → d.variancePct = PVal.fin 0) ∧
    (d.historicalAvg = 0 ∧ 0 < d.latestAmount → d.variancePct = PVal.posInf) ∧
    (d.historicalAvg = 0 ∧ d.latestAmount < 0 → d.variancePct = PVal.negInf) := by
  rcases create_some_inv dfO t h with ⟨df, pcol, _, _, _, _, rfl⟩
  rcases derived_some _ s hs d hd with ⟨h2, rfl⟩
  have hvar : (deriveFor (pivotStage df pcol).periods
      (latestOf (pivotStage df pcol).periods)
      ((periodSort (pivotStage df pcol).periods).dropLast) s.base).variancePct =
      varOf (deriveFor (pivotStage df pcol).periods
        (latestOf (pivotStage df pcol).periods)
        ((periodSort (pivotStage df pcol).periods).dropLast) s.base).latestAmount
        (deriveFor (pivotStage df pcol).periods
          (latestOf (pivotStage df pcol).periods)
          ((periodSort (pivotStage df pcol).periods).dropLast) s.base).historicalAvg := rfl
  rw [hvar]
  generalize (deriveFor (pivotStage df pcol).periods
    (latestOf (pivotStage df pcol).periods)
    ((periodSort (pivotStage df pcol).periods).dropLast) s.base).latestAmount = lat
  generalize (deriveFor (pivotStage df pcol).periods
    (latestOf (pivotStage df pcol).periods)
    ((periodSort (pivotStage df pcol).periods).dropLast) s.base).historicalAvg = havg
  refine ⟨?_, ?_, ?_, ?_⟩
  · intro hne
    simp [varOf, hne]
  · rintro ⟨h0, hl0⟩
    simp [varOf, h0, hl0]
  · rintro ⟨h0, hpos⟩
    simp [varOf, h0, ne_of_gt hpos, hpos]
  · rintro ⟨h0, hneg⟩
    simp [varOf, h0, ne_of_lt hneg, not_lt_of_lt hneg]

/-- C10: a pivot cell of a (Vendor, Account, period) group whose
matching rows all have an unparsable (missing) normalized amount is 0
— the same value an absent group gets — so missing markers never
reach the period columns. -/
theorem allmissing_group_cell_zero (df : DataFrame) (pcol : String)
    (s : PivotRow) (p : String)
    (_hamt : "Amount" ∈ df.cols)
    (hs : s ∈ (pivotStage df pcol).rows)
    (hp : p ∈ (pivotStage df pcol).periods)
    (hall : ∀ e ∈ df.rows.filterMap (entryOf df pcol),
      e.vendor = s.vendor → e.account = s.account → e.period = p →
        e.amount = none) :
    rowVal (pivotStage df pcol).periods s.vals p = 0 := by
  have hshape := pivotRow_shape df pcol s hs
  rw [hshape, rowVal_map _ _ _ hp]
  have hnil : ((df.rows.filterMap (entryOf df pcol)).filter
      (fun e => decide (e.vendor = (s.vendor, s.account).1 ∧
        e.account = (s.vendor, s.account).2 ∧ e.period = p))).filterMap
      Entry.amount = [] := by
    rw [List.filterMap_eq_nil_iff]
    intro e he
    rcases List.mem_filter.mp he with ⟨hmem, hcond⟩
    rcases of_decide_eq_true hcond with ⟨hv, ha, hp2⟩
    exact hall e hmem hv ha hp2
  rw [cellVal, hnil]
  exact round2_zero

/-- C7: amount normalization strips the thousands-separator commas and
parses numerically — a parsable text yields its number, an unparsable
text yields the missing marker (never zero) — and when the Amount
column is absent every row's normalized amount is the number 0 and the
aggregation still produces a table. -/
theorem amount_normalization_contract (df : DataFrame)
    (h : ¬ "Amount" ∈ df.cols) :
    cleanAmount (Cell.str ("1,234.50")) = some (1234.5 : ℚ) ∧
    cleanAmount (Cell.str ("abc")) = none ∧
    (∀ r ∈ df.rows, rowAmount df r = some 0) ∧
    (df.isEmptyDF = false → ("Vendor" ∈ df.cols ∧ "Account" ∈ df.cols) →
      periodColOf df ≠ none →
      (create_summary_report (some df)).isSome = true) := by
  refine ⟨?_, ?_, ?_, ?_⟩
  · show parseNum (stripCommas ("1,234.50")) = some (1234.5 : ℚ)
    have h1 : stripCommas ("1,234.50") = ("1234.50") := by decide
    rw [h1]
    show parseChars (("1234.50").data) = _
    have h2 : ("1234.50").data = ['1', '2', '3', '4', '.', '5', '0'] := rfl
    rw [h2]
    have h3 : parseChars ['1', '2', '3', '4', '.', '5', '0'] =
        some ((digitsVal ['1', '2', '3', '4'] : ℚ) +
          (digitsVal ['5', '0'] : ℚ) / (10 : ℚ) ^ (2 : ℕ)) := rfl
    rw [h3]
    have h4 : digitsVal ['1', '2', '3', '4'] = 1234 := by decide
    have h5 : digitsVal ['5', '0'] = 50 := by decide
    rw [h4, h5]
    norm_num
  · rfl
  · intro r _
    simp [rowAmount, h]
  · intro hne hva hpc
    cases hpc2 : periodColOf df with
    | none => exact absurd hpc2 hpc
    | some pcol => simp [create_summary_report, hne, hpc2, hva.1, hva.2]

theorem zip_self_map {α β : Type} (l : List α) (g : α → β)
    (pr : α × β) (hpr : pr ∈ l.zip (l.map g)) : pr.2 = g pr.1 := by
  induction l with
  | nil => cases hpr
  | cons a t ih =>
      rw [List.map_cons, List.zip_cons_cons] at hpr
      rcases List.mem_cons.mp hpr with rfl | hpr2
      · rfl
      · exact ih hpr2

/-- C8: the detailed report selects exactly the present members of the
fixed column list in that order, passes the input through unchanged
when none is present, and — when Amount is present — ends every row
with the formatted currency string re-parsed from the raw Amount cell:
a dollar sign plus the comma-grouped 2-decimal value, or $0.00 for a
missing or unparsable amount. -/
theorem detailed_report_contract (df : DataFrame) (hne : df.isEmptyDF = false) :
    ((detail_cols.filter (fun c => decide (c ∈ df.cols))) = [] →
      create_detailed_report (some df) = df) ∧
    ((detail_cols.filter (fun c => decide (c ∈ df.cols))) ≠ [] →
      ((create_detailed_report (some df)).cols =
        (detail_cols.filter (fun c => decide (c ∈ df.cols))) ++
          (if "Amount" ∈ df.cols then [("Amount_Clean"), ("Amount_Formatted")]
           else [])) ∧
      ("Amount" ∈ df.cols →
        ∀ pr ∈ df.rows.zip (create_detailed_report (some df)).rows,
          pr.2.getLast? =
            some (Cell.str (formatCurrency (cleanAmount (getCell df pr.1 "Amount")))))) ∧
    formatCurrency (some (1234.5 : ℚ)) = "$1,234.50" ∧
    formatCurrency none = "$0.00" := by
  have hAiff : ("Amount" ∈ detail_cols.filter (fun c => decide (c ∈ df.cols))) ↔
      "Amount" ∈ df.cols := by
    simp [detail_cols]
  refine ⟨?_, ?_, ?_, rfl⟩
  · intro hempty
    simp [create_detailed_report, hne, hempty]
  · intro hnon
    by_cases hA : "Amount" ∈ df.cols
    · constructor
      · simp [create_detailed_report, hne, List.isEmpty_iff, hnon, hAiff.mpr hA, hA]
      · intro _ pr hpr
        have hrows : (create_detailed_report (some df)).rows = df.rows.map
            (fun r => (detail_cols.filter (fun c => decide (c ∈ df.cols))).map
              (fun c => getCell df r c) ++
              [amtCleanCell (getCell df r "Amount"),
               amtFormattedCell (getCell df r "Amount")]) := by
          simp [create_detailed_report, hne, List.isEmpty_iff, hnon, hAiff.mpr hA]
        rw [hrows] at hpr
        have h2 := zip_self_map _ _ pr hpr
        rw [h2]
        have h3 : ∀ (l : List Cell) (c1 c2 : Cell),
            (l ++ [c1, c2]).getLast? = some c2 := by
          intro l c1 c2
          rw [show [c1, c2] = [c1] ++ [c2] from rfl, ← List.append_assoc,
            List.getLast?_concat]
        rw [h3]
        rfl
    · constructor
      · simp [create_detailed_report, hne, List.isEmpty_iff, hnon, hAiff, hA]
      · intro hcon
        exact absurd hcon hA
  · show "$" ++ format2f (1234.5 : ℚ) = "$1,234.50"
    have hc : roundHE ((1234.5 : ℚ) * 100) = 123450 := by
      norm_num [roundHE, ratFloor_eq_floor]
    unfold format2f
    rw [hc]
    decide

/-! ## Concrete evaluations -/

theorem clean_1000 : cleanAmount (Cell.str ("1,000")) = some (1000 : ℚ) := by
  show parseNum (stripCommas ("1,000")) = some (1000 : ℚ)
  rw [show stripCommas ("1,000") = ("1000") from by decide]
  show parseChars (("1000").data) = _
  rw [show ("1000").data = ['1', '0', '0', '0'] from rfl,
    show parseChars ['1', '0', '0', '0'] =
      some ((digitsVal ['1', '0', '0', '0'] : ℚ)) from rfl,
    show digitsVal ['1', '0', '0', '0'] = 1000 from by decide]
  norm_num

theorem clean_0 : cleanAmount (Cell.str ("0")) = some (0 : ℚ) := by
  show parseNum (stripCommas ("0")) = some (0 : ℚ)
  rw [show stripCommas ("0") = ("0") from by decide]
  show parseChars (("0").data) = _
  rw [show ("0").data = ['0'] from rfl,
    show parseChars ['0'] = some ((digitsVal ['0'] : ℚ)) from rfl,
    show digitsVal ['0'] = 0 from by decide]
  norm_num

theorem entW : dfW.rows.filterMap (entryOf dfW ("Accounting Period")) = eW := by
  simp [dfW, eW, entryOf, getCell, colCell, rowAmount, strCell, clean_1000, clean_0]

theorem pivW : pivotStage dfW ("Accounting Period") = pW := by
  rw [pivotStage, entW]
  simp [eW, pW, dedupKeep, periodSort, List.insertionSort, List.orderedInsert,
    show strLe ("2024-01") ("2024-02") from by decide, cellVal]
  all_goals norm_num [round2, roundHE, ratFloor_eq_floor]

theorem detW : detectStage pW = tW := by
  have hs : periodSort [("2024-01"), ("2024-02")] = [("2024-01"), ("2024-02")] := by
    simp [periodSort, List.insertionSort, List.orderedInsert,
      show strLe ("2024-01") ("2024-02") from by decide]
  simp [detectStage, hs, pW, tW, rW, dW, deriveFor, totalFor, rowVal, nonzeroMean,
    alertOf, varOf, latestOf]
  all_goals norm_num [round1, roundHE, ratFloor_eq_floor]

theorem evalW : create_summary_report (some dfW) = some tW := by
  simp [create_summary_report,
    show dfW.isEmptyDF = false from by decide,
    show periodColOf dfW = some ("Accounting Period") from by decide,
    show ("Vendor") ∈ dfW.cols from by decide,
    show ("Account") ∈ dfW.cols from by decide,
    pivW, detW]

theorem entS1 : dfS1.rows.filterMap (entryOf dfS1 ("Accounting Period")) =
    [{ vendor := Cell.str "V", account := Cell.str "A",
       period := "2024-01", amount := some 5 }] := by
  simp [dfS1, entryOf, getCell, colCell, rowAmount, strCell, cleanAmount]

theorem pivS1 : pivotStage dfS1 ("Accounting Period") =
    { periods := [("2024-01")]
      rows := [{ vendor := Cell.str "V", account := Cell.str "A", vals := [5] }] } := by
  rw [pivotStage, entS1]
  simp [dedupKeep, periodSort, List.insertionSort, List.orderedInsert, cellVal]
  all_goals norm_num [round2, roundHE, ratFloor_eq_floor]

theorem detS1 : detectStage
    { periods := [("2024-01")]
      rows := [{ vendor := Cell.str "V", account := Cell.str "A", vals := [5] }] } =
    tS1 := by
  have hs : periodSort [("2024-01")] = [("2024-01")] := by
    simp [periodSort, List.insertionSort, List.orderedInsert]
  simp [detectStage, hs, tS1, rS1, totalFor, rowVal]

theorem evalS1 : create_summary_report (some dfS1) = some tS1 := by
  simp [create_summary_report,
    show dfS1.isEmptyDF = false from by decide,
    show periodColOf dfS1 = some ("Accounting Period") from by decide,
    show ("Vendor") ∈ dfS1.cols from by decide,
    show ("Account") ∈ dfS1.cols from by decide,
    pivS1, detS1]

theorem entC1 : dfC1.rows.filterMap (entryOf dfC1 ("Accounting Period")) =
    [{ vendor := Cell.str "V", account := Cell.str "A",
       period := "2024-01", amount := some 0 },
     { vendor := Cell.str "V", account := Cell.str "A",
       period := "2024-02", amount := some 100 }] := by
  simp [dfC1, entryOf, getCell, colCell, rowAmount, strCell, cleanAmount]

theorem pivC1 : pivotStage dfC1 ("Accounting Period") =
    { periods := [("2024-01"), ("2024-02")]
      rows := [{ vendor := Cell.str "V", account := Cell.str "A", vals := [0, 100] }] } := by
  rw [pivotStage, entC1]
  simp [dedupKeep, periodSort, List.insertionSort, List.orderedInsert,
    show strLe ("2024-01") ("2024-02") from by decide, cellVal]
  all_goals norm_num [round2, roundHE, ratFloor_eq_floor]

theorem detC1 : detectStage
    { periods := [("2024-01"), ("2024-02")]
      rows := [{ vendor := Cell.str "V", account := Cell.str "A", vals := [0, 100] }] } =
    tC1 := by
  have hs : periodSort [("2024-01"), ("2024-02")] = [("2024-01"), ("2024-02")] := by
    simp [periodSort, List.insertionSort, List.orderedInsert,
      show strLe ("2024-01") ("2024-02") from by decide]
  simp [detectStage, hs, tC1, rC1, dC1, deriveFor, totalFor, rowVal, nonzeroMean,
    alertOf, varOf, latestOf]

theorem evalC1 : create_summary_report (some dfC1) = some tC1 := by
  simp [create_summary_report,
    show dfC1.isEmptyDF = false from by decide,
    show periodColOf dfC1 = some ("Accounting Period") from by decide,
    show ("Vendor") ∈ dfC1.cols from by decide,
    show ("Account") ∈ dfC1.cols from by decide,
    pivC1, detC1]

theorem entM : dfM.rows.filterMap (entryOf dfM ("Accounting Period")) =
    [{ vendor := Cell.str "V", account := Cell.str "A",
       period := "2024-01", amount := none },
     { vendor := Cell.str "V", account := Cell.str "A",
       period := "2024-02", amount := none }] := by
  decide

theorem pivM : pivotStage dfM ("Accounting Period") = pM := by
  rw [pivotStage, entM]
  simp [dedupKeep, periodSort, List.insertionSort, List.orderedInsert,
    show strLe ("2024-01") ("2024-02") from by decide, cellVal, pM, rM]
  all_goals norm_num [round2, roundHE, ratFloor_eq_floor]

/-! ## Counterexample and witnesses -/

/-- C1 counterexample: on dfC1 (two period columns; historical value 0,
latest 100) the produced group row has Historical_Avg = 0 yet
Variance_% is +inf, not 0 — refuting that Variance_% is 0 whenever
Historical_Avg is 0 regardless of Latest_Amount. -/
theorem variance_zero_baseline_cex :
    create_summary_report (some dfC1) = some tC1 ∧
    rC1 ∈ tC1.rows ∧ rC1.derived = some dC1 ∧
    2 ≤ tC1.periods.length ∧
    dC1.historicalAvg = 0 ∧ dC1.variancePct ≠ PVal.fin 0 :=
  ⟨evalC1, by simp [tC1], rfl, by decide, rfl, by decide⟩

/-- C1 witness: the amended variance rule applied to the dfW table. -/
theorem variance_ieee_semantics_witness :
    dW.variancePct = PVal.fin
      (round1 ((dW.latestAmount - dW.historicalAvg) / dW.historicalAvg * 100)) :=
  (variance_ieee_semantics (some dfW) tW rW dW evalW (by simp [tW]) rfl).1
    (show dW.historicalAvg ≠ 0 from by norm_num [dW])

/-- C2 witness: the dfW group row (latest 0, baseline 1000) is flagged
Missing by the priority rules. -/
theorem alert_priority_rules_witness : dW.alert = Alert.missing :=
  (alert_priority_rules (some dfW) tW rW dW evalW (by simp [tW]) rfl).1.mpr
    ⟨rfl, show (0 : ℚ) < dW.historicalAvg from by norm_num [dW]⟩

/-- C3 witness: the dfW historical average equals the zero-excluding
mean over the non-maximal period columns. -/
theorem historical_avg_excludes_zeros_witness :
    dW.historicalAvg = nonzeroMean
      ((tW.periods.filter (fun p => decide (p ≠ latestOf tW.periods))).map
        (fun p => rowVal tW.periods rW.base.vals p)) :=
  (historical_avg_excludes_zeros (some dfW) tW rW dW evalW (by simp [tW]) rfl).1

/-- C4 witness: the single-period table has no derived columns and a
computed total. -/
theorem derived_cols_iff_two_periods_witness :
    (rS1.derived.isSome ↔ 2 ≤ tS1.periods.length) ∧
      rS1.total = rS1.base.vals.sum :=
  ⟨((derived_cols_iff_two_periods (some dfS1) tS1 evalS1).2 rS1 (by simp [tS1])).1,
   ((derived_cols_iff_two_periods (some dfS1) tS1 evalS1).2 rS1 (by simp [tS1])).2⟩

/-- C5 witness: the dfW row total equals the sum of its period
values. -/
theorem total_reconstructs_row_witness : rW.total = rW.base.vals.sum :=
  total_reconstructs_row (some dfW) tW rW evalW (by simp [tW])

/-- C6 witness: a frame without the Vendor column yields the empty
result. -/
theorem empty_and_schema_guards_witness :
    create_summary_report (some dfG) = none :=
  empty_and_schema_guards (some dfG)
    (Or.inr ⟨dfG, rfl, Or.inr (Or.inr (Or.inl (by decide)))⟩)

/-- C7 witness: the normalization facts at the Amount-free frame
dfNA. -/
theorem amount_normalization_contract_witness :
    cleanAmount (Cell.str ("1,234.50")) = some (1234.5 : ℚ) ∧
    cleanAmount (Cell.str ("abc")) = none ∧
    rowAmount dfNA [Cell.str "V", Cell.str "A", Cell.str "2024-01"] = some 0 ∧
    (create_summary_report (some dfNA)).isSome = true :=
  ⟨(amount_normalization_contract dfNA (by decide)).1,
   (amount_normalization_contract dfNA (by decide)).2.1,
   (amount_normalization_contract dfNA (by decide)).2.2.1 _ (by simp [dfNA]),
   (amount_normalization_contract dfNA (by decide)).2.2.2 (by decide)
     ⟨by decide, by decide⟩ (by decide)⟩

/-- C8 witness: the detailed-report contract at dfW. -/
theorem detailed_report_contract_witness :
    formatCurrency (some (1234.5 : ℚ)) = "$1,234.50" ∧
    formatCurrency none = "$0.00" ∧
    (create_detailed_report (some dfW)).cols =
      (detail_cols.filter (fun c => decide (c ∈ dfW.cols))) ++
        (if "Amount" ∈ dfW.cols then [("Amount_Clean"), ("Amount_Formatted")]
         else []) :=
  ⟨(detailed_report_contract dfW (by decide)).2.2.1,
   (detailed_report_contract dfW (by decide)).2.2.2,
   ((detailed_report_contract dfW (by decide)).2.1 (by decide)).1⟩

/-- C9 witness: the frame property instantiated at the dfW pivot
table. -/
theorem anomaly_stage_frame_witness :
    (detectStage pW).periods = pW.periods ∧
      (detectStage pW).rows.map SummaryRow.base = pW.rows :=
  anomaly_stage_frame pW

/-- C10 witness: the dfM group (both amounts unparsable) gets a 0 in
its 2024-01 pivot cell. -/
theorem allmissing_group_cell_zero_witness :
    rowVal (pivotStage dfM ("Accounting Period")).periods rM.vals ("2024-01") = 0 :=
  allmissing_group_cell_zero dfM ("Accounting Period") rM ("2024-01")
    (by decide)
    (by rw [pivM]; simp [pM])
    (by rw [pivM]; simp [pM])
    (by decide)

end TrueAccrue
